import Mathlib

/-!
# pge-multithreading: racing two postal-code providers under a deadline

A shallow embedding of `main.go`.

* Go strings are byte sequences (`GoString`); `len` is the number of bytes.
* `validate` is the input validation at the start of `main` (lines 23-36),
  including the behaviour of `strconv.Atoi` on the strings that reach it.
* `request`, `requestCepFromBrasilApi` and `requestCepFromViaCep` are the
  adapters (lines 90-178); the network and the JSON decoder are an explicit
  `World` the functions consult.
* The race of `main` (lines 38-78) is a transition system: `step` executes one
  scheduling event on a `RaceState`, `run` a whole schedule.
-/

set_option maxRecDepth 8000

namespace Cep

/-! ## Go strings -/

/-- A Go `string`: an immutable sequence of bytes. -/
abbrev GoString := List (Fin 256)

/-- UTF-8 encoding of one code point, as the Go compiler stores a string
literal and as the operating system hands over a command-line argument. -/
def utf8 (c : Char) : GoString :=
  let n := c.toNat
  if n < 128 then [Fin.ofNat n]
  else if n < 2048 then [Fin.ofNat (192 + n / 64), Fin.ofNat (128 + n % 64)]
  else if n < 65536 then
    [Fin.ofNat (224 + n / 4096), Fin.ofNat (128 + n / 64 % 64), Fin.ofNat (128 + n % 64)]
  else
    [Fin.ofNat (240 + n / 262144), Fin.ofNat (128 + n / 4096 % 64),
     Fin.ofNat (128 + n / 64 % 64), Fin.ofNat (128 + n % 64)]

/-- The bytes of a string literal. -/
def go (s : String) : GoString :=
  (s.toList.map utf8).flatten

/-- A byte is one of the decimal digits `'0'..'9'`. -/
def isDigit (b : Fin 256) : Bool :=
  decide (48 ≤ b.val ∧ b.val ≤ 57)

/-! ## strconv.Atoi on short strings -/

/-- The `*strconv.NumError` that `strconv.Atoi` returns. -/
structure NumError where
  Func : String
  Num : GoString
  Err : String
deriving DecidableEq, Repr

/-- The helper `syntaxError(fn, str)` of package strconv. -/
def syntaxError (fn : String) (str : GoString) : NumError :=
  { Func := fn, Num := str, Err := "invalid syntax" }

/-- The digit loop of `Atoi`'s fast path:
`for _, ch := range []byte(s) { ch -= '0'; if ch > 9 { return syntax error }; n = n*10 + int(ch) }`.
`ch` is a byte, so the subtraction wraps modulo 256. `none` is the syntax
error. -/
def atoiLoop : GoString → Int → Option Int
  | [], n => some n
  | ch :: rest, n =>
    let ch := (ch.val + 256 - 48) % 256
    if ch > 9 then none else atoiLoop rest (n * 10 + (ch : Int))

/-- The function `strconv.Atoi(s)` for `0 < len(s) < 10`: on such strings both the 32-bit
and the 64-bit build take the fast path of the standard library (the guard is
`intSize == 32 && (0 < sLen && sLen < 10) || intSize == 64 && (0 < sLen && sLen < 19)`),
and at most nine digits never overflow `int`. `main` calls `Atoi` only after
`len(cep) != 8` has returned, so this is the only path the program reaches.
The result is Go's pair `(int, error)`; `none` is a nil error. -/
def Atoi (s : GoString) (_h : 0 < s.length ∧ s.length < 10) : Int × Option NumError :=
  let s0 := s
  let sign := decide (s.head? = some 45) || decide (s.head? = some 43)
  if sign && decide (s.tail.length < 1) then (0, some (syntaxError "Atoi" s0))
  else
    let s := if sign then s.tail else s
    match atoiLoop s 0 with
    | none => (0, some (syntaxError "Atoi" s0))
    | some n => (if s0.head? = some 45 then -n else n, none)

/-! ## Input validation (main, lines 23-36) -/

/-- The three checks at the start of `main`. The result is the line the
rejecting check logs before `main` returns, or `none` when all three pass and
`main` goes on to the race. -/
def validate (cep : GoString) : Option String :=
  if cep = [] then some "cep can not be empty"
  else if h : cep.length ≠ 8 then some "cep must have eight digits"
  else if (Atoi cep (by omega)).2.isSome then some "cep must contain only digits"
  else none

/-! ## The provider adapters (lines 81-178) -/

/-- The Go struct `cepInfo`: the record the program prints. -/
structure cepInfo where
  Cep : GoString
  State : GoString
  City : GoString
  Neighborhood : GoString
  Street : GoString
  Api : GoString
deriving DecidableEq, Repr

/-- The local type `respData` of `requestCepFromBrasilApi`. -/
structure BrasilApiData where
  Cep : GoString
  State : GoString
  City : GoString
  Neighborhood : GoString
  Street : GoString
  Service : GoString
deriving DecidableEq, Repr

/-- The local type `respData` of `requestCepFromViaCep`. -/
structure ViaCepData where
  Cep : GoString
  Logradouro : GoString
  Complemento : GoString
  Unidade : GoString
  Bairro : GoString
  Localidade : GoString
  Uf : GoString
  Ibge : GoString
  Gia : GoString
  Ddd : GoString
  Siafi : GoString
deriving DecidableEq, Repr

/-- The zero value `var data respData` of the Brasil API adapter. -/
def BrasilApiData.zero : BrasilApiData :=
  { Cep := [], State := [], City := [], Neighborhood := [], Street := [], Service := [] }

/-- The zero value `var data respData` of the ViaCEP adapter. -/
def ViaCepData.zero : ViaCepData :=
  { Cep := [], Logradouro := [], Complemento := [], Unidade := [], Bairro := [],
    Localidade := [], Uf := [], Ibge := [], Gia := [], Ddd := [], Siafi := [] }

/-- Everything outside the program that `request` consults, by URL: whether
building the request fails, whether the round trip fails (transport error,
cancellation or deadline), what reading the body gives, and what
`json.Unmarshal` makes of a body for each of the two response types (the
decoded value and the error). An error is its message; `none` is nil. -/
structure World where
  NewRequestWithContext : GoString → Option String
  Do : GoString → Option String
  ReadAll : GoString → GoString × Option String
  UnmarshalBrasilApi : GoString → BrasilApiData → BrasilApiData × Option String
  UnmarshalViaCep : GoString → ViaCepData → ViaCepData × Option String

/-- The function `request(ctx, url, data)`: `data` is the in/out parameter the
decoder fills, `unmarshal` the decoder for its type. Returns the value of
`data` after the call and the error. -/
def request {α : Type} (w : World) (unmarshal : GoString → α → α × Option String)
    (url : GoString) (data : α) : α × Option String :=
  match w.NewRequestWithContext url with
  | some err => (data, some ("error to create request: " ++ err))
  | none =>
    match w.Do url with
    | some err => (data, some ("error to do request: " ++ err))
    | none =>
      match w.ReadAll url with
      | (_, some err) => (data, some ("error to read body: " ++ err))
      | (body, none) =>
        match unmarshal body data with
        | (data, some err) => (data, some ("error to Unmarshal body: " ++ err))
        | (data, none) => (data, none)

/-- The function `requestCepFromBrasilApi(ctx, cep)`. The result is Go's pair
`(*cepInfo, error)`: `none` is a nil pointer, respectively a nil error. -/
def requestCepFromBrasilApi (w : World) (cep : GoString) : Option cepInfo × Option String :=
  match request w w.UnmarshalBrasilApi (go "https://brasilapi.com.br/api/cep/v1/" ++ cep)
      BrasilApiData.zero with
  | (_, some err) => (none, some ("error requesting brasil api: " ++ err))
  | (data, none) =>
    (some { Cep := data.Cep, State := data.State, City := data.City,
            Neighborhood := data.Neighborhood, Street := data.Street,
            Api := go "brasil-api" }, none)

/-- The function `requestCepFromViaCep(ctx, cep)`. -/
def requestCepFromViaCep (w : World) (cep : GoString) : Option cepInfo × Option String :=
  match request w w.UnmarshalViaCep (go "http://viacep.com.br/ws/" ++ cep ++ go "/json/")
      ViaCepData.zero with
  | (_, some err) => (none, some ("error requesting brasil api: " ++ err))
  | (data, none) =>
    (some { Cep := data.Cep, State := data.Uf, City := data.Localidade,
            Neighborhood := data.Bairro, Street := data.Logradouro,
            Api := go "via-cep" }, none)

/-! ## The race (main, lines 38-78) -/

/-- The two goroutines `main` starts, in source order. -/
inductive Provider
  | brasilApi
  | viaCep
deriving DecidableEq, Repr

/-- The adapter a goroutine calls. -/
def Provider.fetch : Provider → World → GoString → Option cepInfo × Option String
  | .brasilApi => requestCepFromBrasilApi
  | .viaCep => requestCepFromViaCep

/-- The name a goroutine puts in its log line. -/
def Provider.label : Provider → String
  | .brasilApi => "brasil-api"
  | .viaCep => "via-cep"

/-- The other goroutine. -/
def Provider.other : Provider → Provider
  | .brasilApi => .viaCep
  | .viaCep => .brasilApi

/-- Where one of the two goroutines stands. -/
inductive Goroutine
  /-- inside its adapter call, which has not returned -/
  | running
  /-- the adapter returned a nil error; blocked at `resultChan <- resp` -/
  | sending (resp : Option cepInfo)
  /-- returned: after logging an error, or after its send completed -/
  | returned
deriving DecidableEq, Repr

/-- The error of the context `ctx`, once it is done. -/
inductive CtxErr
  /-- the error `context.DeadlineExceeded`: the one-second timer fired -/
  | DeadlineExceeded
  /-- the error `context.Canceled`: `cancel()` was called first -/
  | Canceled
deriving DecidableEq, Repr

/-- What the `select` of `main` did. -/
inductive Outcome
  /-- received `info` with `info.Cep != ""`: `json.NewEncoder(os.Stdout).Encode(info)`
  prints the record; a failed write to standard output is outside the model -/
  | success (info : cepInfo)
  /-- received `info` with `info.Cep == ""`: `err = errors.New("cep not found")` -/
  | notFound
  /-- took `<-ctx.Done()`: `err = ctx.Err()` -/
  | ctxDone (err : CtxErr)
  /-- received a nil pointer: `info.Cep` panics -/
  | nilDeref
deriving DecidableEq, Repr

/-- Where `main` stands. -/
inductive MainState
  /-- blocked in the `select` -/
  | selecting
  /-- past the `select` -/
  | finished (out : Outcome)
deriving DecidableEq, Repr

/-- Capacity of `resultChan`: `make(chan *cepInfo)` has no size argument, so
the channel is unbuffered. -/
def resultChanCap : Nat := 0

/-- State of the race: the two goroutines, the values buffered in
`resultChan`, the error of `ctx` (`none` while it is live), `main`, and the
lines logged so far. -/
structure RaceState where
  brasilApi : Goroutine
  viaCep : Goroutine
  chan : List (Option cepInfo)
  ctx : Option CtxErr
  main : MainState
  log : List String
deriving DecidableEq, Repr

/-- The goroutine of a provider. -/
def RaceState.task (s : RaceState) : Provider → Goroutine
  | .brasilApi => s.brasilApi
  | .viaCep => s.viaCep

/-- Update of one goroutine. -/
def RaceState.setTask (s : RaceState) (p : Provider) (g : Goroutine) : RaceState :=
  match p with
  | .brasilApi => { s with brasilApi := g }
  | .viaCep => { s with viaCep := g }

/-- State when `main` reaches the `select`: both goroutines started, the
channel empty, the context live. -/
def RaceState.init : RaceState :=
  { brasilApi := .running, viaCep := .running, chan := [], ctx := none,
    main := .selecting, log := [] }

/-- The body of `case info := <-resultChan:` after `cancel()`. -/
def classify : Option cepInfo → Outcome
  | none => .nilDeref
  | some info => if info.Cep = [] then .notFound else .success info

/-- What `cancel()` does to the context: a live context becomes `Canceled`, a
done one keeps its error. -/
def cancel : Option CtxErr → Option CtxErr
  | none => some .Canceled
  | some e => some e

/-- One scheduling event. -/
inductive Event
  /-- the adapter call of a goroutine returns -/
  | ret (p : Provider)
  /-- a blocked send completes into the channel's buffer -/
  | send (p : Provider)
  /-- the one-second timer of `ctx` fires -/
  | deadline
  /-- the `select` receives directly from a blocked sender -/
  | recv (p : Provider)
  /-- the `select` receives the oldest buffered value -/
  | recvBuf
  /-- the `select` takes `<-ctx.Done()` -/
  | done
deriving DecidableEq, Repr

/-- One step of the race for input `cep` in world `w`; `none` when the event
is not enabled in the state. When the `select` can both receive and take
`<-ctx.Done()`, both events are enabled, as Go chooses between ready cases at
random. A send completes either into the buffer, when it has room, or by
being received. Events after `main` is past the `select` are what can still
happen before the process exits. -/
def step (w : World) (cep : GoString) (s : RaceState) : Event → Option RaceState
  | .ret p =>
    match s.task p with
    | .running =>
      match p.fetch w cep with
      | (_, some err) =>
        some { s.setTask p .returned with
               log := s.log ++ ["error threading " ++ p.label ++ ": " ++ err] }
      | (resp, none) => some (s.setTask p (.sending resp))
    | _ => none
  | .send p =>
    match s.task p with
    | .sending resp =>
      if s.chan.length < resultChanCap then
        some { s.setTask p .returned with chan := s.chan ++ [resp] }
      else none
    | _ => none
  | .deadline =>
    match s.ctx with
    | none => some { s with ctx := some .DeadlineExceeded }
    | some _ => none
  | .recv p =>
    match s.main, s.chan, s.task p with
    | .selecting, [], .sending info =>
      some { s.setTask p .returned with
             ctx := cancel s.ctx, main := .finished (classify info) }
    | _, _, _ => none
  | .recvBuf =>
    match s.main, s.chan with
    | .selecting, info :: rest =>
      some { s with chan := rest, ctx := cancel s.ctx, main := .finished (classify info) }
    | _, _ => none
  | .done =>
    match s.main, s.ctx with
    | .selecting, some err => some { s with main := .finished (.ctxDone err) }
    | _, _ => none

/-- A schedule executed from a state; `none` when one of its events is not
enabled. -/
def run (w : World) (cep : GoString) : RaceState → List Event → Option RaceState
  | s, [] => some s
  | s, e :: es =>
    match step w cep s e with
    | none => none
    | some s' => run w cep s' es

/-- The line `main` logs after the `select` (`if err != nil { log.Println(err) }`). -/
def Outcome.logLine : Outcome → Option String
  | .success _ => none
  | .notFound => some "cep not found"
  | .ctxDone .DeadlineExceeded => some "context deadline exceeded"
  | .ctxDone .Canceled => some "context canceled"
  | .nilDeref => none

/-- The function `main` up to the `select`: either validation rejects the
input and `main` returns having logged `line`, with no goroutine started, or
the race starts. -/
inductive Start
  | rejected (line : String)
  | racing (s : RaceState)
deriving DecidableEq, Repr

/-- The first part of `main`, lines 23-62. -/
def start (cep : GoString) : Start :=
  match validate cep with
  | some line => .rejected line
  | none => .racing RaceState.init

/-- What holds of every state a schedule reaches from `RaceState.init`:
the channel buffers nothing; a goroutine blocked on its send holds what its
adapter returned, with a nil error; while `main` is in the `select` the
context has not been cancelled; and the outcome, once there is one, is either
the deadline error or the classification of what one adapter returned. -/
def Inv (w : World) (cep : GoString) (s : RaceState) : Prop :=
  s.chan = [] ∧
  (∀ (p : Provider) (resp : Option cepInfo),
    s.task p = .sending resp → p.fetch w cep = (resp, none)) ∧
  (s.main = .selecting → s.ctx = none ∨ s.ctx = some .DeadlineExceeded) ∧
  (∀ o, s.main = .finished o →
    o = .ctxDone .DeadlineExceeded ∨
      ∃ p : Provider, (p.fetch w cep).2 = none ∧ o = classify (p.fetch w cep).1)

/-- A world for examples: every request is built, sent and read without
error, and the decoder of each provider either fills the given value or
fails. -/
def exWorld (brasil : Option BrasilApiData) (via : Option ViaCepData) : World :=
  { NewRequestWithContext := fun _ => none
    Do := fun _ => none
    ReadAll := fun _ => ([], none)
    UnmarshalBrasilApi := fun _ data =>
      match brasil with
      | some d => (d, none)
      | none => (data, some "unexpected end of JSON input")
    UnmarshalViaCep := fun _ data =>
      match via with
      | some d => (d, none)
      | none => (data, some "unexpected end of JSON input") }

/-- A Brasil API answer for Avenida Paulista, with the cep formatted
`01310-100`. -/
def paulista : BrasilApiData :=
  { Cep := go "01310-100", State := go "SP", City := go "São Paulo",
    Neighborhood := go "Bela Vista", Street := go "Avenida Paulista",
    Service := go "open-cep" }

/-- The record the Brasil API adapter builds from `paulista`. -/
def paulistaInfo : cepInfo :=
  { Cep := go "01310-100", State := go "SP", City := go "São Paulo",
    Neighborhood := go "Bela Vista", Street := go "Avenida Paulista",
    Api := go "brasil-api" }

/-- A ViaCEP answer for the same address. -/
def paulistaVia : ViaCepData :=
  { ViaCepData.zero with
    Cep := go "01310-100", Logradouro := go "Avenida Paulista", Bairro := go "Bela Vista",
    Localidade := go "São Paulo", Uf := go "SP" }

/-- The record the ViaCEP adapter builds from `paulistaVia`. -/
def paulistaViaInfo : cepInfo :=
  { Cep := go "01310-100", State := go "SP", City := go "São Paulo",
    Neighborhood := go "Bela Vista", Street := go "Avenida Paulista",
    Api := go "via-cep" }

/-- The record the ViaCEP adapter builds from a response with none of the
recognised fields. -/
def emptyViaInfo : cepInfo :=
  { Cep := [], State := [], City := [], Neighborhood := [], Street := [],
    Api := go "via-cep" }

/-- The state after ViaCEP has failed to decode its response and Brasil API
has delivered the Avenida Paulista record. -/
def brasilWon : RaceState :=
  { brasilApi := .returned, viaCep := .returned, chan := [], ctx := some .Canceled,
    main := .finished (.success paulistaInfo),
    log := ["error threading via-cep: error requesting brasil api: " ++
      "error to Unmarshal body: unexpected end of JSON input"] }

/-- The state after both adapters have failed to decode their responses, the
deadline has fired and `main` has taken the `ctx.Done()` case. -/
def bothFailed : RaceState :=
  { brasilApi := .returned, viaCep := .returned, chan := [],
    ctx := some .DeadlineExceeded, main := .finished (.ctxDone .DeadlineExceeded),
    log := ["error threading brasil-api: error requesting brasil api: " ++
              "error to Unmarshal body: unexpected end of JSON input",
            "error threading via-cep: error requesting brasil api: " ++
              "error to Unmarshal body: unexpected end of JSON input"] }

/-- The state after Brasil API alone has returned and delivered the Avenida
Paulista record. -/
def brasilFirst : RaceState :=
  { brasilApi := .returned, viaCep := .running, chan := [], ctx := some .Canceled,
    main := .finished (.success paulistaInfo), log := [] }

/-- The state after the deadline has fired with both providers in flight,
`main` has taken the `ctx.Done()` case, and ViaCEP has then returned its
record. -/
def timedOut : RaceState :=
  { brasilApi := .running, viaCep := .sending (some paulistaViaInfo), chan := [],
    ctx := some .DeadlineExceeded, main := .finished (.ctxDone .DeadlineExceeded),
    log := [] }

/-- The state after the deadline has fired with both providers in flight,
Brasil API has then returned the Avenida Paulista record, and `main`, not yet
past the `select`, has received it. -/
def lateDelivery : RaceState :=
  { brasilApi := .returned, viaCep := .running, chan := [],
    ctx := some .DeadlineExceeded, main := .finished (.success paulistaInfo), log := [] }

/-! ## Validation: helper lemmas -/

theorem atoiLoop_isSome_iff (s : GoString) (n : Int) :
    (atoiLoop s n).isSome = true ↔ ∀ b ∈ s, isDigit b = true := by
  induction s generalizing n with
  | nil => simp [atoiLoop]
  | cons ch rest ih =>
    have hlt := ch.isLt
    by_cases hd : (ch.val + 256 - 48) % 256 > 9
    · have hnd : isDigit ch = false := by
        simp only [isDigit, decide_eq_false_iff_not]
        omega
      simp only [atoiLoop, if_pos hd, List.mem_cons, forall_eq_or_imp, hnd]
      simp
    · have hdig : isDigit ch = true := by
        simp only [isDigit, decide_eq_true_eq]
        omega
      simp only [atoiLoop, if_neg hd, List.mem_cons, forall_eq_or_imp, hdig, ih]
      simp

/-- When `Atoi` returns a nil error on a short string. -/
theorem Atoi_err_eq_none_iff (c : Fin 256) (rest : GoString)
    (h : 0 < (c :: rest).length ∧ (c :: rest).length < 10) :
    (Atoi (c :: rest) h).2 = none ↔
      ((∀ b ∈ c :: rest, isDigit b = true) ∨
        ((c = 43 ∨ c = 45) ∧ rest ≠ [] ∧ ∀ b ∈ rest, isDigit b = true)) := by
  have key := atoiLoop_isSome_iff rest 0
  have keyc := atoiLoop_isSome_iff (c :: rest) 0
  by_cases hc : c = 43 ∨ c = 45
  · have hnd : isDigit c = false := by
      rcases hc with h | h <;> subst h <;> decide
    have hsign : (decide ((c :: rest).head? = some 45) ||
        decide ((c :: rest).head? = some 43)) = true := by
      rcases hc with h | h <;> subst h <;> simp
    simp only [Atoi, hsign, List.tail_cons, Bool.true_and, if_true, List.mem_cons,
      forall_eq_or_imp, hnd, Bool.false_eq_true, false_and, false_or, hc, true_and]
    by_cases hr : rest = []
    · subst hr
      simp
    · have hlen : ¬ rest.length < 1 := by
        have := List.length_pos.mpr hr
        omega
      simp only [hlen, decide_False, Bool.false_eq_true, if_false, ne_eq, hr, not_false_eq_true,
        true_and]
      rw [← key]
      cases atoiLoop rest 0 <;> simp
  · have hsign : (decide ((c :: rest).head? = some 45) ||
        decide ((c :: rest).head? = some 43)) = false := by
      simp only [not_or] at hc
      simp [hc.1, hc.2]
    simp only [Atoi, hsign, Bool.false_and, Bool.false_eq_true, if_false, hc, false_and,
      or_false]
    rw [← keyc]
    cases atoiLoop (c :: rest) 0 <;> simp

/-- A string passes the three checks exactly when it has eight bytes and is
either all digits or a sign byte (`+` or `-`) followed by digits. -/
theorem validate_eq_none_iff (cep : GoString) :
    validate cep = none ↔
      cep.length = 8 ∧
        ((∀ b ∈ cep, isDigit b = true) ∨
          ∃ c rest, cep = c :: rest ∧ (c = 43 ∨ c = 45) ∧ ∀ b ∈ rest, isDigit b = true) := by
  unfold validate
  by_cases hnil : cep = []
  · subst hnil
    simp
  by_cases hlen : cep.length ≠ 8
  · simp [hnil, hlen]
  have hlen8 : cep.length = 8 := by omega
  obtain ⟨c, rest, rfl⟩ := List.exists_cons_of_ne_nil hnil
  have hrest : rest ≠ [] := by
    intro h
    subst h
    simp at hlen8
  have hA := Atoi_err_eq_none_iff c rest (by omega)
  rw [if_neg hnil, dif_neg hlen]
  simp only [hlen8, true_and]
  cases hv : (Atoi (c :: rest) (by omega)).2 with
  | none =>
    rw [hv] at hA
    have hA' := hA.mp rfl
    simp only [Option.isSome_none, Bool.false_eq_true, if_false, true_iff]
    rcases hA' with h | ⟨h1, _, h3⟩
    · exact Or.inl h
    · exact Or.inr ⟨c, rest, rfl, h1, h3⟩
  | some e =>
    rw [hv] at hA
    simp only [Option.isSome_some, if_true]
    constructor
    · intro hbad
      cases hbad
    intro hcon
    exfalso
    have : (some e : Option NumError) = none := by
      apply hA.mpr
      rcases hcon with h | ⟨c', rest', heq, h1, h3⟩
      · exact Or.inl h
      · obtain ⟨rfl, rfl⟩ := List.cons.inj heq
        exact Or.inr ⟨h1, hrest, h3⟩
    cases this

/-! ## Validation: the claims -/

/-- C1 (defect in the code): the digits check of `main` is `strconv.Atoi`,
which also accepts a leading sign, so the eight-byte inputs `+1234567` and
`-1234567` pass all three checks and start the race although their first
byte is not a decimal digit. -/
theorem signed_input_passes_validation :
    validate (go "+1234567") = none ∧
    start (go "+1234567") = Start.racing RaceState.init ∧
    validate (go "-1234567") = none ∧
    start (go "-1234567") = Start.racing RaceState.init ∧
    (go "+1234567").length = 8 ∧
    (go "+1234567").head? = some 43 ∧ isDigit 43 = false ∧
    (go "-1234567").head? = some 45 ∧ isDigit 45 = false := by
  decide

/-- C2: every string of exactly eight decimal digits passes the three checks
of `main` (it is not empty, its length is 8, `Atoi` returns a nil error), so
the race is started for it. -/
theorem eight_digits_pass (cep : GoString) (hlen : cep.length = 8)
    (hdig : ∀ b ∈ cep, isDigit b = true) :
    cep ≠ [] ∧ cep.length = 8 ∧
    (∀ h : 0 < cep.length ∧ cep.length < 10, (Atoi cep h).2 = none) ∧
    validate cep = none ∧ start cep = Start.racing RaceState.init := by
  have hne : cep ≠ [] := by
    intro h
    subst h
    simp at hlen
  have hv : validate cep = none := (validate_eq_none_iff cep).mpr ⟨hlen, Or.inl hdig⟩
  refine ⟨hne, hlen, ?_, hv, ?_⟩
  · intro h
    obtain ⟨c, rest, rfl⟩ := List.exists_cons_of_ne_nil hne
    exact (Atoi_err_eq_none_iff c rest h).mpr (Or.inl hdig)
  · simp [start, hv]

/-- Witness for C2 at `01310100` and at `00000000`. -/
theorem eight_digits_pass_witness :
    (validate (go "01310100") = none ∧ start (go "01310100") = Start.racing RaceState.init) ∧
    (validate (go "00000000") = none ∧ start (go "00000000") = Start.racing RaceState.init) :=
  ⟨⟨(eight_digits_pass (go "01310100") (by decide) (by decide)).2.2.2.1,
    (eight_digits_pass (go "01310100") (by decide) (by decide)).2.2.2.2⟩,
   ⟨(eight_digits_pass (go "00000000") (by decide) (by decide)).2.2.2.1,
    (eight_digits_pass (go "00000000") (by decide) (by decide)).2.2.2.2⟩⟩

/-- C3: the checks apply in the order empty, length, digits. An input whose
length is not 8 is rejected by the first check when it is empty and by the
length check otherwise, whatever bytes it contains: it is never rejected by
the digits check, and no goroutine is started. -/
theorem wrong_length_rejected_in_order (cep : GoString) (hlen : cep.length ≠ 8) :
    validate cep =
      some (if cep = [] then "cep can not be empty" else "cep must have eight digits") ∧
    validate cep ≠ some "cep must contain only digits" ∧
    start cep =
      Start.rejected (if cep = [] then "cep can not be empty" else "cep must have eight digits") := by
  have hv : validate cep =
      some (if cep = [] then "cep can not be empty" else "cep must have eight digits") := by
    unfold validate
    by_cases hnil : cep = []
    · simp [hnil]
    · rw [if_neg hnil, dif_pos hlen, if_neg hnil]
  refine ⟨hv, ?_, ?_⟩
  · rw [hv]
    by_cases hnil : cep = []
    · rw [if_pos hnil]
      decide
    · rw [if_neg hnil]
      decide
  · simp only [start, hv]

/-- Witness for C3 at the empty string, at `1234` and at `abc`. -/
theorem wrong_length_rejected_in_order_witness :
    validate [] = some "cep can not be empty" ∧
    validate (go "1234") = some "cep must have eight digits" ∧
    validate (go "abc") = some "cep must have eight digits" :=
  ⟨(wrong_length_rejected_in_order [] (by decide)).1,
   (wrong_length_rejected_in_order (go "1234") (by decide)).1,
   (wrong_length_rejected_in_order (go "abc") (by decide)).1⟩

/-! ## The race: how each event acts -/

@[simp] theorem setTask_chan (s : RaceState) (p : Provider) (g : Goroutine) :
    (s.setTask p g).chan = s.chan := by
  cases p <;> rfl

@[simp] theorem setTask_ctx (s : RaceState) (p : Provider) (g : Goroutine) :
    (s.setTask p g).ctx = s.ctx := by
  cases p <;> rfl

@[simp] theorem setTask_main (s : RaceState) (p : Provider) (g : Goroutine) :
    (s.setTask p g).main = s.main := by
  cases p <;> rfl

@[simp] theorem setTask_log (s : RaceState) (p : Provider) (g : Goroutine) :
    (s.setTask p g).log = s.log := by
  cases p <;> rfl

@[simp] theorem setTask_task_same (s : RaceState) (p : Provider) (g : Goroutine) :
    (s.setTask p g).task p = g := by
  cases p <;> rfl

theorem setTask_task_ne (s : RaceState) (p q : Provider) (g : Goroutine) (h : q ≠ p) :
    (s.setTask p g).task q = s.task q := by
  cases p <;> cases q <;> first | rfl | exact absurd rfl h

theorem step_ret (w : World) (cep : GoString) (s s' : RaceState) (p : Provider)
    (h : step w cep s (.ret p) = some s') :
    s.task p = .running ∧
      ((∃ r err, p.fetch w cep = (r, some err) ∧
          s' = { s.setTask p .returned with
                 log := s.log ++ ["error threading " ++ p.label ++ ": " ++ err] }) ∨
        (∃ resp, p.fetch w cep = (resp, none) ∧ s' = s.setTask p (.sending resp))) := by
  simp only [step] at h
  cases ht : s.task p with
  | running =>
    rw [ht] at h
    refine ⟨rfl, ?_⟩
    rcases hf : p.fetch w cep with ⟨r, _ | err⟩
    · rw [hf] at h
      exact Or.inr ⟨r, rfl, (Option.some.inj h).symm⟩
    · rw [hf] at h
      exact Or.inl ⟨r, err, rfl, (Option.some.inj h).symm⟩
  | sending r =>
    rw [ht] at h
    cases h
  | returned =>
    rw [ht] at h
    cases h

theorem step_send (w : World) (cep : GoString) (s : RaceState) (p : Provider) :
    step w cep s (.send p) = none := by
  simp only [step]
  cases s.task p <;> simp [resultChanCap]

theorem step_deadline (w : World) (cep : GoString) (s s' : RaceState)
    (h : step w cep s .deadline = some s') :
    s.ctx = none ∧ s' = { s with ctx := some .DeadlineExceeded } := by
  simp only [step] at h
  cases hc : s.ctx with
  | none =>
    rw [hc] at h
    exact ⟨rfl, (Option.some.inj h).symm⟩
  | some e =>
    rw [hc] at h
    cases h

theorem step_recv (w : World) (cep : GoString) (s s' : RaceState) (p : Provider)
    (h : step w cep s (.recv p) = some s') :
    s.main = .selecting ∧ s.chan = [] ∧
      ∃ info, s.task p = .sending info ∧
        s' = { s.setTask p .returned with
               ctx := cancel s.ctx, main := .finished (classify info) } := by
  simp only [step] at h
  split at h
  · rename_i info hm hc ht
    exact ⟨hm, hc, info, ht, (Option.some.inj h).symm⟩
  · cases h

theorem step_recvBuf (w : World) (cep : GoString) (s s' : RaceState)
    (h : step w cep s .recvBuf = some s') :
    s.main = .selecting ∧ s.chan ≠ [] := by
  simp only [step] at h
  split at h
  · rename_i info rest hm hc
    exact ⟨hm, by simp [hc]⟩
  · cases h

theorem step_done (w : World) (cep : GoString) (s s' : RaceState)
    (h : step w cep s .done = some s') :
    s.main = .selecting ∧
      ∃ err, s.ctx = some err ∧ s' = { s with main := .finished (.ctxDone err) } := by
  simp only [step] at h
  split at h
  · rename_i err hm hc
    exact ⟨hm, err, hc, (Option.some.inj h).symm⟩
  · cases h

theorem run_cons (w : World) (cep : GoString) (s s' : RaceState) (e : Event) (es : List Event)
    (h : run w cep s (e :: es) = some s') :
    ∃ s1, step w cep s e = some s1 ∧ run w cep s1 es = some s' := by
  unfold run at h
  cases hs : step w cep s e with
  | none =>
    rw [hs] at h
    cases h
  | some s1 =>
    rw [hs] at h
    exact ⟨s1, rfl, h⟩

/-! ## The race: invariants -/

/-- A property of states that every step allowed by `A` preserves is
preserved by every schedule of allowed events. -/
theorem run_preserves (w : World) (cep : GoString) (P : RaceState → Prop) (A : Event → Prop)
    (hstep : ∀ s e s', P s → A e → step w cep s e = some s' → P s') :
    ∀ (es : List Event) (s s' : RaceState), P s → (∀ e ∈ es, A e) →
      run w cep s es = some s' → P s' := by
  intro es
  induction es with
  | nil =>
    intro s s' hP _ hrun
    simp only [run] at hrun
    cases hrun
    exact hP
  | cons e es ih =>
    intro s s' hP hA hrun
    obtain ⟨s1, h1, h2⟩ := run_cons w cep s s' e es hrun
    exact ih s1 s' (hstep s e s1 hP (hA e (List.mem_cons_self e es)) h1)
      (fun e' he' => hA e' (List.mem_cons_of_mem e he')) h2

/-- An event that is disabled wherever `P` holds does not occur in a schedule
that runs from a state satisfying `P`. -/
theorem run_never (w : World) (cep : GoString) (P : RaceState → Prop) (A : Event → Prop)
    (bad : Event)
    (hstep : ∀ s e s', P s → A e → step w cep s e = some s' → P s')
    (hbad : ∀ s, P s → step w cep s bad = none) :
    ∀ (es : List Event) (s s' : RaceState), P s → (∀ e ∈ es, A e) →
      run w cep s es = some s' → bad ∉ es := by
  intro es
  induction es with
  | nil =>
    intro s s' _ _ _
    simp
  | cons e es ih =>
    intro s s' hP hA hrun
    obtain ⟨s1, h1, h2⟩ := run_cons w cep s s' e es hrun
    have hrest := ih s1 s' (hstep s e s1 hP (hA e (List.mem_cons_self e es)) h1)
      (fun e' he' => hA e' (List.mem_cons_of_mem e he')) h2
    intro hmem
    rcases List.mem_cons.mp hmem with heq | hin
    · subst heq
      rw [hbad s hP] at h1
      cases h1
    · exact hrest hin

theorem Inv_init (w : World) (cep : GoString) : Inv w cep RaceState.init := by
  refine ⟨rfl, ?_, ?_, ?_⟩
  · intro p resp h
    cases p <;> cases h
  · intro _
    exact Or.inl rfl
  · intro o h
    cases h

theorem Inv_step (w : World) (cep : GoString) (s : RaceState) (e : Event) (s' : RaceState)
    (hI : Inv w cep s) (hs : step w cep s e = some s') : Inv w cep s' := by
  obtain ⟨hchan, hsend, hctx, hout⟩ := hI
  cases e with
  | ret p =>
    obtain ⟨_, h | h⟩ := step_ret w cep s s' p hs
    · obtain ⟨r, err, _, rfl⟩ := h
      refine ⟨by simpa using hchan, ?_, by simpa using hctx, by simpa using hout⟩
      intro q resp hq
      by_cases hqp : q = p
      · subst hqp
        have : (s.setTask q .returned).task q = .sending resp := by
          cases q <;> exact hq
        simp at this
      · apply hsend q resp
        rw [← setTask_task_ne s p q .returned hqp]
        cases q <;> exact hq
    · obtain ⟨resp0, hf, rfl⟩ := h
      refine ⟨by simpa using hchan, ?_, by simpa using hctx, by simpa using hout⟩
      intro q resp hq
      by_cases hqp : q = p
      · subst hqp
        simp only [setTask_task_same, Goroutine.sending.injEq] at hq
        subst hq
        exact hf
      · rw [setTask_task_ne s p q _ hqp] at hq
        exact hsend q resp hq
  | send p =>
    rw [step_send] at hs
    cases hs
  | deadline =>
    obtain ⟨_, rfl⟩ := step_deadline w cep s s' hs
    exact ⟨hchan, hsend, fun _ => Or.inr rfl, hout⟩
  | recv p =>
    obtain ⟨hm, _, info, ht, rfl⟩ := step_recv w cep s s' p hs
    refine ⟨by simpa using hchan, ?_, ?_, ?_⟩
    · intro q resp hq
      by_cases hqp : q = p
      · subst hqp
        have : (s.setTask q .returned).task q = .sending resp := by
          cases q <;> exact hq
        simp at this
      · apply hsend q resp
        rw [← setTask_task_ne s p q .returned hqp]
        cases q <;> exact hq
    · intro h
      cases h
    · intro o ho
      have hf := hsend p info ht
      right
      refine ⟨p, ?_, ?_⟩
      · rw [hf]
      · rw [hf]
        exact (MainState.finished.inj ho).symm
  | recvBuf =>
    exact absurd hchan (step_recvBuf w cep s s' hs).2
  | done =>
    obtain ⟨hm, err, hc, rfl⟩ := step_done w cep s s' hs
    refine ⟨hchan, hsend, ?_, ?_⟩
    · intro h
      cases h
    · intro o ho
      left
      rcases hctx hm with h | h
      · rw [h] at hc
        cases hc
      · rw [h] at hc
        cases hc
        exact (MainState.finished.inj ho).symm

theorem Inv_run (w : World) (cep : GoString) (es : List Event) (s s' : RaceState)
    (hI : Inv w cep s) (hrun : run w cep s es = some s') : Inv w cep s' :=
  run_preserves w cep (Inv w cep) (fun _ => True)
    (fun s e s' hP _ hs => Inv_step w cep s e s' hP hs) es s s' hI (fun _ _ => trivial) hrun

/-! ## The adapters -/

theorem requestCepFromBrasilApi_ok (w : World) (cep : GoString) (data : BrasilApiData)
    (h : request w w.UnmarshalBrasilApi (go "https://brasilapi.com.br/api/cep/v1/" ++ cep)
      BrasilApiData.zero = (data, none)) :
    requestCepFromBrasilApi w cep =
      (some { Cep := data.Cep, State := data.State, City := data.City,
              Neighborhood := data.Neighborhood, Street := data.Street,
              Api := go "brasil-api" }, none) := by
  simp only [requestCepFromBrasilApi, h]

theorem requestCepFromBrasilApi_err (w : World) (cep : GoString) (data : BrasilApiData)
    (err : String)
    (h : request w w.UnmarshalBrasilApi (go "https://brasilapi.com.br/api/cep/v1/" ++ cep)
      BrasilApiData.zero = (data, some err)) :
    requestCepFromBrasilApi w cep = (none, some ("error requesting brasil api: " ++ err)) := by
  simp only [requestCepFromBrasilApi, h]

theorem requestCepFromViaCep_ok (w : World) (cep : GoString) (data : ViaCepData)
    (h : request w w.UnmarshalViaCep (go "http://viacep.com.br/ws/" ++ cep ++ go "/json/")
      ViaCepData.zero = (data, none)) :
    requestCepFromViaCep w cep =
      (some { Cep := data.Cep, State := data.Uf, City := data.Localidade,
              Neighborhood := data.Bairro, Street := data.Logradouro,
              Api := go "via-cep" }, none) := by
  simp only [requestCepFromViaCep, h]

theorem requestCepFromViaCep_err (w : World) (cep : GoString) (data : ViaCepData)
    (err : String)
    (h : request w w.UnmarshalViaCep (go "http://viacep.com.br/ws/" ++ cep ++ go "/json/")
      ViaCepData.zero = (data, some err)) :
    requestCepFromViaCep w cep = (none, some ("error requesting brasil api: " ++ err)) := by
  simp only [requestCepFromViaCep, h]

/-- An adapter returns either a nil pointer with an error, or a record tagged
with its own identifier with a nil error. -/
theorem fetch_cases (w : World) (cep : GoString) (p : Provider) :
    (∃ err, p.fetch w cep = (none, some err)) ∨
      (∃ info, p.fetch w cep = (some info, none) ∧ info.Api = go p.label ∧
        ((p = .brasilApi ∧ ∃ data,
            request w w.UnmarshalBrasilApi (go "https://brasilapi.com.br/api/cep/v1/" ++ cep)
              BrasilApiData.zero = (data, none) ∧ info.Cep = data.Cep) ∨
         (p = .viaCep ∧ ∃ data,
            request w w.UnmarshalViaCep (go "http://viacep.com.br/ws/" ++ cep ++ go "/json/")
              ViaCepData.zero = (data, none) ∧ info.Cep = data.Cep))) := by
  cases p with
  | brasilApi =>
    rcases hr : request w w.UnmarshalBrasilApi
      (go "https://brasilapi.com.br/api/cep/v1/" ++ cep) BrasilApiData.zero with ⟨data, _ | err⟩
    · right
      exact ⟨_, requestCepFromBrasilApi_ok w cep data hr, rfl, Or.inl ⟨rfl, data, rfl, rfl⟩⟩
    · left
      exact ⟨_, requestCepFromBrasilApi_err w cep data err hr⟩
  | viaCep =>
    rcases hr : request w w.UnmarshalViaCep
      (go "http://viacep.com.br/ws/" ++ cep ++ go "/json/") ViaCepData.zero with ⟨data, _ | err⟩
    · right
      exact ⟨_, requestCepFromViaCep_ok w cep data hr, rfl, Or.inr ⟨rfl, data, rfl, rfl⟩⟩
    · left
      exact ⟨_, requestCepFromViaCep_err w cep data err hr⟩

/-- C7: for every successfully decoded response each adapter returns the
record built by its fixed field mapping and tagged with its own identifier
(`brasil-api`: same-named fields; `via-cep`: cep, uf, localidade, bairro,
logradouro); an adapter returns a non-nil record exactly when it returns a nil
error; and the `api` field of every record an adapter returns, of every
record a goroutine offers on the channel and of every record `main` prints is
one of the two identifiers. -/
theorem adapters_normalise (w : World) (cep : GoString) :
    (∀ data, request w w.UnmarshalBrasilApi (go "https://brasilapi.com.br/api/cep/v1/" ++ cep)
        BrasilApiData.zero = (data, none) →
      requestCepFromBrasilApi w cep =
        (some { Cep := data.Cep, State := data.State, City := data.City,
                Neighborhood := data.Neighborhood, Street := data.Street,
                Api := go "brasil-api" }, none)) ∧
    (∀ data, request w w.UnmarshalViaCep (go "http://viacep.com.br/ws/" ++ cep ++ go "/json/")
        ViaCepData.zero = (data, none) →
      requestCepFromViaCep w cep =
        (some { Cep := data.Cep, State := data.Uf, City := data.Localidade,
                Neighborhood := data.Bairro, Street := data.Logradouro,
                Api := go "via-cep" }, none)) ∧
    ((requestCepFromBrasilApi w cep).1 ≠ none ↔ (requestCepFromBrasilApi w cep).2 = none) ∧
    ((requestCepFromViaCep w cep).1 ≠ none ↔ (requestCepFromViaCep w cep).2 = none) ∧
    (∀ info, (requestCepFromBrasilApi w cep).1 = some info → info.Api = go "brasil-api") ∧
    (∀ info, (requestCepFromViaCep w cep).1 = some info → info.Api = go "via-cep") ∧
    (∀ es s, run w cep RaceState.init es = some s →
      (∀ p resp, s.task p = .sending resp →
        ∃ info, resp = some info ∧ (info.Api = go "brasil-api" ∨ info.Api = go "via-cep")) ∧
      (∀ info, s.main = .finished (.success info) →
        info.Api = go "brasil-api" ∨ info.Api = go "via-cep")) := by
  have hb := fetch_cases w cep .brasilApi
  have hv := fetch_cases w cep .viaCep
  simp only [Provider.fetch, Provider.label] at hb hv
  refine ⟨fun data h => requestCepFromBrasilApi_ok w cep data h,
    fun data h => requestCepFromViaCep_ok w cep data h, ?_, ?_, ?_, ?_, ?_⟩
  · rcases hb with ⟨err, h⟩ | ⟨info, h, _⟩ <;> simp [h]
  · rcases hv with ⟨err, h⟩ | ⟨info, h, _⟩ <;> simp [h]
  · intro info hi
    rcases hb with ⟨err, h⟩ | ⟨info', h, hapi, _⟩
    · rw [h] at hi
      cases hi
    · rw [h] at hi
      cases hi
      exact hapi
  · intro info hi
    rcases hv with ⟨err, h⟩ | ⟨info', h, hapi, _⟩
    · rw [h] at hi
      cases hi
    · rw [h] at hi
      cases hi
      exact hapi
  · intro es s hrun
    obtain ⟨_, hsend, _, hout⟩ := Inv_run w cep es _ s (Inv_init w cep) hrun
    have hapi : ∀ (p : Provider) (info : cepInfo), (p.fetch w cep).1 = some info →
        info.Api = go "brasil-api" ∨ info.Api = go "via-cep" := by
      intro p info hi
      rcases fetch_cases w cep p with ⟨err, h⟩ | ⟨info', h, hl, _⟩
      · rw [h] at hi
        cases hi
      · rw [h] at hi
        cases hi
        cases p
        · exact Or.inl hl
        · exact Or.inr hl
    constructor
    · intro p resp hp
      have hf := hsend p resp hp
      rcases fetch_cases w cep p with ⟨err, h⟩ | ⟨info', h, _, _⟩
      · rw [h] at hf
        cases hf
      · rw [h] at hf
        cases hf
        exact ⟨info', rfl, hapi p info' (by rw [h])⟩
    · intro info hfin
      rcases hout _ hfin with h | ⟨p, _, hcl⟩
      · cases h
      · cases hr : (p.fetch w cep).1 with
        | none =>
          rw [hr] at hcl
          cases hcl
        | some i =>
          rw [hr] at hcl
          simp only [classify] at hcl
          split at hcl
          · cases hcl
          · cases hcl
            exact hapi p _ hr

/-- Witness for C7: the Avenida Paulista response of Brasil API and of
ViaCEP. -/
theorem adapters_normalise_witness :
    requestCepFromBrasilApi (exWorld (some paulista) (some paulistaVia)) (go "01310100") =
      (some paulistaInfo, none) ∧
    requestCepFromViaCep (exWorld (some paulista) (some paulistaVia)) (go "01310100") =
      (some paulistaViaInfo, none) :=
  ⟨(adapters_normalise (exWorld (some paulista) (some paulistaVia)) (go "01310100")).1
      paulista (by decide),
   (adapters_normalise (exWorld (some paulista) (some paulistaVia)) (go "01310100")).2.1
      paulistaVia (by decide)⟩

/-! ## The race: the outcome is final -/

theorem task_of_log (s : RaceState) (l : List String) (p : Provider) :
    ({ s with log := l } : RaceState).task p = s.task p := by
  cases p <;> rfl

theorem task_of_ctx (s : RaceState) (c : Option CtxErr) (p : Provider) :
    ({ s with ctx := c } : RaceState).task p = s.task p := by
  cases p <;> rfl

theorem task_of_main (s : RaceState) (m : MainState) (p : Provider) :
    ({ s with main := m } : RaceState).task p = s.task p := by
  cases p <;> rfl

theorem task_of_ctx_main (s : RaceState) (c : Option CtxErr) (m : MainState) (p : Provider) :
    ({ s with ctx := c, main := m } : RaceState).task p = s.task p := by
  cases p <;> rfl

/-- Once `main` is past the `select`, no event changes its outcome. -/
theorem finished_step (w : World) (cep : GoString) (o : Outcome) (s : RaceState) (e : Event)
    (s' : RaceState) (hm : s.main = .finished o) (hs : step w cep s e = some s') :
    s'.main = .finished o := by
  cases e with
  | ret p =>
    obtain ⟨_, h | h⟩ := step_ret w cep s s' p hs
    · obtain ⟨r, err, _, rfl⟩ := h
      simpa using hm
    · obtain ⟨resp0, _, rfl⟩ := h
      simpa using hm
  | send p =>
    rw [step_send] at hs
    cases hs
  | deadline =>
    obtain ⟨_, rfl⟩ := step_deadline w cep s s' hs
    exact hm
  | recv p =>
    have h := (step_recv w cep s s' p hs).1
    rw [hm] at h
    cases h
  | recvBuf =>
    have h := (step_recvBuf w cep s s' hs).1
    rw [hm] at h
    cases h
  | done =>
    have h := (step_done w cep s s' hs).1
    rw [hm] at h
    cases h

theorem finished_run (w : World) (cep : GoString) (o : Outcome) (es : List Event)
    (s s' : RaceState) (hm : s.main = .finished o) (hrun : run w cep s es = some s') :
    s'.main = .finished o :=
  run_preserves w cep (fun t => t.main = .finished o) (fun _ => True)
    (fun t e t' hP _ hs => finished_step w cep o t e t' hP hs) es s s' hm
    (fun _ _ => trivial) hrun

/-- Once `main` is past the `select`, a goroutine blocked on its send stays
blocked on it. -/
theorem blocked_step (w : World) (cep : GoString) (p : Provider) (resp : Option cepInfo)
    (s : RaceState) (e : Event) (s' : RaceState)
    (hP : (∃ o, s.main = .finished o) ∧ s.task p = .sending resp)
    (hs : step w cep s e = some s') :
    (∃ o, s'.main = .finished o) ∧ s'.task p = .sending resp := by
  obtain ⟨⟨o, hm⟩, ht⟩ := hP
  refine ⟨⟨o, finished_step w cep o s e s' hm hs⟩, ?_⟩
  cases e with
  | ret q =>
    obtain ⟨hq, h⟩ := step_ret w cep s s' q hs
    have hpq : p ≠ q := by
      intro h'
      subst h'
      rw [ht] at hq
      cases hq
    rcases h with h | h
    · obtain ⟨r, err, _, rfl⟩ := h
      rw [task_of_log, setTask_task_ne s q p _ hpq]
      exact ht
    · obtain ⟨resp0, _, rfl⟩ := h
      rw [setTask_task_ne s q p _ hpq]
      exact ht
  | send q =>
    rw [step_send] at hs
    cases hs
  | deadline =>
    obtain ⟨_, rfl⟩ := step_deadline w cep s s' hs
    rw [task_of_ctx]
    exact ht
  | recv q =>
    have h := (step_recv w cep s s' q hs).1
    rw [hm] at h
    cases h
  | recvBuf =>
    have h := (step_recvBuf w cep s s' hs).1
    rw [hm] at h
    cases h
  | done =>
    have h := (step_done w cep s s' hs).1
    rw [hm] at h
    cases h

/-- What a receive by the `select` of `main` does in a reachable state. -/
theorem recv_delivers_fetch (w : World) (cep : GoString) (es : List Event)
    (s s' : RaceState) (p : Provider)
    (hrun : run w cep RaceState.init es = some s)
    (hrecv : step w cep s (.recv p) = some s') :
    ∃ info, p.fetch w cep = (some info, none) ∧ s.task p = .sending (some info) ∧
      s'.main = .finished (if info.Cep = [] then .notFound else .success info) ∧
      info.Api = go p.label := by
  obtain ⟨_, hsend, _, _⟩ := Inv_run w cep es _ s (Inv_init w cep) hrun
  obtain ⟨_, _, resp, ht, hs'⟩ := step_recv w cep s s' p hrecv
  have hf := hsend p resp ht
  rcases fetch_cases w cep p with ⟨err, h⟩ | ⟨info, h, hl, _⟩
  · rw [h] at hf
    cases hf
  · rw [h] at hf
    cases hf
    refine ⟨info, h, ht, ?_, hl⟩
    rw [hs']
    rfl

/-- C4: the first delivered result alone decides the outcome. When the
`select` of `main` receives from a goroutine, what it receives is the record
that goroutine's adapter returned; the outcome is `notFound` when the record's
`Cep` is empty and otherwise `success` carrying exactly that record; and
whatever happens afterwards (the other adapter returning, the deadline), the
outcome stays the same and no second receive takes place. -/
theorem first_delivery_decides (w : World) (cep : GoString) (es : List Event)
    (s s' : RaceState) (p : Provider)
    (hrun : run w cep RaceState.init es = some s)
    (hrecv : step w cep s (.recv p) = some s') :
    ∃ info, p.fetch w cep = (some info, none) ∧ s.task p = .sending (some info) ∧
      s'.main = .finished (if info.Cep = [] then .notFound else .success info) ∧
      ∀ es' s'', run w cep s' es' = some s'' →
        s''.main = s'.main ∧ (∀ q, step w cep s'' (.recv q) = none) ∧
          step w cep s'' .recvBuf = none ∧ step w cep s'' .done = none := by
  obtain ⟨_, hsend, _, _⟩ := Inv_run w cep es _ s (Inv_init w cep) hrun
  obtain ⟨_, _, resp, ht, hs'⟩ := step_recv w cep s s' p hrecv
  have hf := hsend p resp ht
  rcases fetch_cases w cep p with ⟨err, h⟩ | ⟨info, h, _, _⟩
  · rw [h] at hf
    cases hf
  · rw [h] at hf
    cases hf
    have hmain : s'.main = .finished (if info.Cep = [] then .notFound else .success info) := by
      rw [hs']
      rfl
    refine ⟨info, h, ht, hmain, ?_⟩
    intro es' s'' hrun'
    have hfin := finished_run w cep _ es' s' s'' hmain hrun'
    refine ⟨by rw [hfin, hmain], ?_, ?_, ?_⟩
    · intro q
      cases hq : step w cep s'' (.recv q) with
      | none => rfl
      | some t =>
        have := (step_recv w cep s'' t q hq).1
        rw [hfin] at this
        cases this
    · cases hq : step w cep s'' .recvBuf with
      | none => rfl
      | some t =>
        have := (step_recvBuf w cep s'' t hq).1
        rw [hfin] at this
        cases this
    · cases hq : step w cep s'' .done with
      | none => rfl
      | some t =>
        have := (step_done w cep s'' t hq).1
        rw [hfin] at this
        cases this

/-- Witness for C4: Brasil API delivers the Avenida Paulista record first;
the outcome is that record, also after ViaCEP returns and the deadline
fires. -/
theorem first_delivery_decides_witness :
    ∃ info, Provider.brasilApi.fetch (exWorld (some paulista) (some ViaCepData.zero))
        (go "01310100") = (some info, none) ∧
      (RaceState.init.setTask .brasilApi (.sending (some paulistaInfo))).task .brasilApi =
        .sending (some info) ∧
      ({ brasilApi := .returned, viaCep := .running, chan := [], ctx := some .Canceled,
         main := .finished (.success paulistaInfo), log := [] } : RaceState).main =
        .finished (if info.Cep = [] then .notFound else .success info) ∧
      ∀ es' s'', run (exWorld (some paulista) (some ViaCepData.zero)) (go "01310100")
          { brasilApi := .returned, viaCep := .running, chan := [], ctx := some .Canceled,
            main := .finished (.success paulistaInfo), log := [] } es' = some s'' →
        s''.main = .finished (.success paulistaInfo) ∧
          (∀ q, step (exWorld (some paulista) (some ViaCepData.zero)) (go "01310100") s''
            (.recv q) = none) ∧
          step (exWorld (some paulista) (some ViaCepData.zero)) (go "01310100") s''
            .recvBuf = none ∧
          step (exWorld (some paulista) (some ViaCepData.zero)) (go "01310100") s''
            .done = none :=
  first_delivery_decides (exWorld (some paulista) (some ViaCepData.zero)) (go "01310100")
    [.ret .brasilApi] (RaceState.init.setTask .brasilApi (.sending (some paulistaInfo)))
    { brasilApi := .returned, viaCep := .running, chan := [], ctx := some .Canceled,
      main := .finished (.success paulistaInfo), log := [] } .brasilApi
    (by decide) (by decide)

/-! ## The channel -/

/-- C8, as stated, fails: `resultChan` has capacity 0, and in the world where
both providers answer, after `main` has received the Brasil API record the
ViaCEP goroutine is blocked on its send, no event that would complete the send
is enabled, and it stays blocked whatever happens next. -/
theorem losing_send_never_completes :
    resultChanCap = 0 ∧
    run (exWorld (some paulista) (some paulistaVia)) (go "01310100") RaceState.init
        [.ret .brasilApi, .ret .viaCep, .recv .brasilApi] =
      some { brasilApi := .returned, viaCep := .sending (some paulistaViaInfo), chan := [],
             ctx := some .Canceled, main := .finished (.success paulistaInfo), log := [] } ∧
    (∀ es s', run (exWorld (some paulista) (some paulistaVia)) (go "01310100")
        { brasilApi := .returned, viaCep := .sending (some paulistaViaInfo), chan := [],
          ctx := some .Canceled, main := .finished (.success paulistaInfo), log := [] }
        es = some s' →
      s'.viaCep = .sending (some paulistaViaInfo)) := by
  refine ⟨rfl, by decide, ?_⟩
  intro es s' hrun
  have h := run_preserves (exWorld (some paulista) (some paulistaVia)) (go "01310100")
    (fun t => (∃ o, t.main = .finished o) ∧ t.task .viaCep = .sending (some paulistaViaInfo))
    (fun _ => True)
    (fun t e t' hP _ hs => blocked_step _ _ .viaCep _ t e t' hP hs) es
    { brasilApi := .returned, viaCep := .sending (some paulistaViaInfo), chan := [],
      ctx := some .Canceled, main := .finished (.success paulistaInfo), log := [] } s'
    ⟨⟨.success paulistaInfo, rfl⟩, rfl⟩ (fun _ _ => trivial) hrun
  exact h.2

/-- C8, amended: `resultChan` is unbuffered. In every state of the race it
holds no pending delivery and no send can complete into it; a send completes
only by being received by the `select` of `main`. So once `main` is past the
`select`, a goroutine blocked on its send stays blocked. A goroutine whose
adapter failed is never blocked, because it does not send. -/
theorem unbuffered_channel (w : World) (cep : GoString) (es : List Event) (s : RaceState)
    (hrun : run w cep RaceState.init es = some s) :
    resultChanCap = 0 ∧ s.chan = [] ∧
    (∀ p, step w cep s (.send p) = none) ∧ step w cep s .recvBuf = none ∧
    (∀ o, s.main = .finished o → ∀ p resp, s.task p = .sending resp →
      ∀ es' s', run w cep s es' = some s' → s'.task p = .sending resp) ∧
    (∀ p, (p.fetch w cep).2 ≠ none → ∀ resp, s.task p ≠ .sending resp) := by
  obtain ⟨hchan, hsend, _, _⟩ := Inv_run w cep es _ s (Inv_init w cep) hrun
  refine ⟨rfl, hchan, fun p => step_send w cep s p, ?_, ?_, ?_⟩
  · cases hq : step w cep s .recvBuf with
    | none => rfl
    | some t => exact absurd hchan (step_recvBuf w cep s t hq).2
  · intro o hm p resp ht es' s' hrun'
    exact (run_preserves w cep
      (fun t => (∃ o, t.main = .finished o) ∧ t.task p = .sending resp) (fun _ => True)
      (fun t e t' hP _ hs => blocked_step w cep p resp t e t' hP hs) es' s s'
      ⟨⟨o, hm⟩, ht⟩ (fun _ _ => trivial) hrun').2
  · intro p hfail resp ht
    have := hsend p resp ht
    rw [this] at hfail
    exact hfail rfl

/-- Witness for C8 amended: the deadline fires while both providers are still
in flight, `main` takes the `ctx.Done()` case, then ViaCEP returns. -/
theorem unbuffered_channel_witness :
    resultChanCap = 0 ∧ timedOut.chan = [] ∧
    (∀ es' s', run (exWorld (some paulista) (some paulistaVia)) (go "01310100") timedOut es' =
        some s' →
      s'.task .viaCep = .sending (some paulistaViaInfo)) :=
  ⟨(unbuffered_channel (exWorld (some paulista) (some paulistaVia)) (go "01310100")
      [.deadline, .done, .ret .viaCep] timedOut (by decide)).1,
   (unbuffered_channel (exWorld (some paulista) (some paulistaVia)) (go "01310100")
      [.deadline, .done, .ret .viaCep] timedOut (by decide)).2.1,
   (unbuffered_channel (exWorld (some paulista) (some paulistaVia)) (go "01310100")
      [.deadline, .done, .ret .viaCep] timedOut (by decide)).2.2.2.2.1 _ rfl .viaCep _ rfl⟩

/-! ## The race: a delivering adapter -/

theorem eq_of_ne_other (p q : Provider) (h : q ≠ p.other) : q = p := by
  cases p <;> cases q <;> first | rfl | exact absurd rfl h

/-- While no deadline fires and the other goroutine is not received from, the
context stays live during the `select` and the only outcome is the success of
`p`'s record. -/
theorem win_step (w : World) (cep : GoString) (p : Provider) (info : cepInfo)
    (hf : p.fetch w cep = (some info, none)) (hne : info.Cep ≠ [])
    (s : RaceState) (e : Event) (s' : RaceState)
    (hP : Inv w cep s ∧ (s.main = .selecting → s.ctx = none) ∧
      (∀ o, s.main = .finished o → o = .success info))
    (hA : e ≠ .deadline ∧ e ≠ .recv p.other)
    (hs : step w cep s e = some s') :
    Inv w cep s' ∧ (s'.main = .selecting → s'.ctx = none) ∧
      (∀ o, s'.main = .finished o → o = .success info) := by
  obtain ⟨hI, hctx, hout⟩ := hP
  refine ⟨Inv_step w cep s e s' hI hs, ?_⟩
  cases e with
  | ret q =>
    obtain ⟨_, h | h⟩ := step_ret w cep s s' q hs
    · obtain ⟨r, err, _, rfl⟩ := h
      exact ⟨by simpa using hctx, by simpa using hout⟩
    · obtain ⟨resp0, _, rfl⟩ := h
      exact ⟨by simpa using hctx, by simpa using hout⟩
  | send q =>
    rw [step_send] at hs
    cases hs
  | deadline => exact absurd rfl hA.1
  | recv q =>
    have hq : q = p := eq_of_ne_other p q (fun h => hA.2 (by rw [h]))
    subst hq
    obtain ⟨_, _, resp, ht, rfl⟩ := step_recv w cep s s' q hs
    have := hI.2.1 q resp ht
    rw [hf] at this
    cases this
    constructor
    · intro h
      cases h
    · intro o ho
      have : o = classify (some info) := (MainState.finished.inj ho).symm
      rw [this]
      simp [classify, hne]
  | recvBuf => exact absurd hI.1 (step_recvBuf w cep s s' hs).2
  | done =>
    obtain ⟨hm, err, hc, _⟩ := step_done w cep s s' hs
    rw [hctx hm] at hc
    cases hc

/-- A goroutine whose adapter call has not returned is not received from. -/
theorem running_step (w : World) (cep : GoString) (q : Provider)
    (s : RaceState) (e : Event) (s' : RaceState)
    (hP : s.task q = .running) (hA : e ≠ .ret q) (hs : step w cep s e = some s') :
    s'.task q = .running := by
  cases e with
  | ret r =>
    have hqr : q ≠ r := fun h => hA (by rw [h])
    obtain ⟨_, h | h⟩ := step_ret w cep s s' r hs
    · obtain ⟨_, err, _, rfl⟩ := h
      rw [task_of_log, setTask_task_ne s r q _ hqr]
      exact hP
    · obtain ⟨resp0, _, rfl⟩ := h
      rw [setTask_task_ne s r q _ hqr]
      exact hP
  | send r =>
    rw [step_send] at hs
    cases hs
  | deadline =>
    obtain ⟨_, rfl⟩ := step_deadline w cep s s' hs
    rw [task_of_ctx]
    exact hP
  | recv r =>
    obtain ⟨_, _, resp, ht, rfl⟩ := step_recv w cep s s' r hs
    have hqr : q ≠ r := by
      intro h
      subst h
      rw [hP] at ht
      cases ht
    rw [task_of_ctx_main, setTask_task_ne s r q _ hqr]
    exact hP
  | recvBuf =>
    have := step_recvBuf w cep s s' hs
    simp only [step] at hs
    split at hs
    · cases hs
      exact hP
    · cases hs
  | done =>
    obtain ⟨_, err, _, rfl⟩ := step_done w cep s s' hs
    rw [task_of_main]
    exact hP

/-- A goroutine that is not blocked on a send cannot be received from. -/
theorem recv_disabled (w : World) (cep : GoString) (q : Provider) (s : RaceState)
    (h : ∀ resp, s.task q ≠ .sending resp) : step w cep s (.recv q) = none := by
  cases hq : step w cep s (.recv q) with
  | none => rfl
  | some t =>
    obtain ⟨_, _, resp, ht, _⟩ := step_recv w cep s t q hq
    exact absurd ht (h resp)

/-- A goroutine whose adapter fails, or whose adapter call does not return
in the schedule, is not received from in the schedule. -/
theorem not_received (w : World) (cep : GoString) (q : Provider) (es : List Event)
    (s : RaceState)
    (h : (q.fetch w cep).2 ≠ none ∨ Event.ret q ∉ es ∨ Event.recv q ∉ es)
    (hrun : run w cep RaceState.init es = some s) : Event.recv q ∉ es := by
  rcases h with h | h | h
  · refine run_never w cep (Inv w cep) (fun _ => True) (.recv q)
      (fun t e t' hP _ hs => Inv_step w cep t e t' hP hs) ?_ es _ s (Inv_init w cep)
      (fun _ _ => trivial) hrun
    intro t hI
    apply recv_disabled
    intro resp ht
    have := hI.2.1 q resp ht
    rw [this] at h
    exact h rfl
  · refine run_never w cep (fun t => t.task q = .running) (fun e => e ≠ .ret q)
      (.recv q) (fun t e t' hP hA hs => running_step w cep q t e t' hP hA hs)
      ?_ es _ s ?_ ?_ hrun
    · intro t ht
      apply recv_disabled
      intro resp hr
      rw [ht] at hr
      cases hr
    · cases q <;> rfl
    · intro e he heq
      rw [heq] at he
      exact h he
  · exact h

/-- A goroutine whose adapter returned a record has either not delivered it
yet or `main` is past the `select`. -/
theorem returned_step (w : World) (cep : GoString) (p : Provider) (info : cepInfo)
    (hf : p.fetch w cep = (some info, none))
    (s : RaceState) (e : Event) (s' : RaceState)
    (hP : s.task p = .returned → ∃ o, s.main = .finished o)
    (hs : step w cep s e = some s') :
    s'.task p = .returned → ∃ o, s'.main = .finished o := by
  cases e with
  | ret r =>
    obtain ⟨hr, h | h⟩ := step_ret w cep s s' r hs
    · obtain ⟨_, err, hfr, rfl⟩ := h
      have hpr : p ≠ r := by
        intro h
        subst h
        rw [hf] at hfr
        cases hfr
      rw [task_of_log, setTask_task_ne s r p _ hpr]
      simpa using hP
    · obtain ⟨resp0, _, rfl⟩ := h
      by_cases hpr : p = r
      · subst hpr
        intro h
        simp at h
      · rw [setTask_task_ne s r p _ hpr]
        simpa using hP
  | send r =>
    rw [step_send] at hs
    cases hs
  | deadline =>
    obtain ⟨_, rfl⟩ := step_deadline w cep s s' hs
    rw [task_of_ctx]
    exact hP
  | recv r =>
    obtain ⟨_, _, resp, ht, rfl⟩ := step_recv w cep s s' r hs
    intro _
    exact ⟨_, rfl⟩
  | recvBuf =>
    simp only [step] at hs
    split at hs
    · cases hs
      intro _
      exact ⟨_, rfl⟩
    · cases hs
  | done =>
    obtain ⟨_, err, _, rfl⟩ := step_done w cep s s' hs
    intro _
    exact ⟨_, rfl⟩

theorem step_ret_ok (w : World) (cep : GoString) (s : RaceState) (p : Provider)
    (resp : Option cepInfo) (ht : s.task p = .running) (hf : p.fetch w cep = (resp, none)) :
    step w cep s (.ret p) = some (s.setTask p (.sending resp)) := by
  simp only [step, ht, hf]

theorem step_recv_ok (w : World) (cep : GoString) (s : RaceState) (p : Provider)
    (resp : Option cepInfo) (hm : s.main = .selecting) (hc : s.chan = [])
    (ht : s.task p = .sending resp) :
    ∃ t, step w cep s (.recv p) = some t ∧ t.main = .finished (classify resp) := by
  refine ⟨{ s.setTask p .returned with
            ctx := cancel s.ctx, main := .finished (classify resp) }, ?_, rfl⟩
  simp only [step, hm, hc, ht]

/-- C5, as stated, fails: Brasil API returns the Avenida Paulista record
before any deadline, but ViaCEP, whose response has none of the recognised
fields, is received first, and the outcome is `notFound`. -/
theorem empty_first_delivery_wins :
    validate (go "01310100") = none ∧
    Provider.brasilApi.fetch (exWorld (some paulista) (some ViaCepData.zero)) (go "01310100") =
      (some paulistaInfo, none) ∧
    paulistaInfo.Cep ≠ [] ∧
    Event.deadline ∉ [Event.ret .viaCep, Event.ret .brasilApi, Event.recv .viaCep] ∧
    run (exWorld (some paulista) (some ViaCepData.zero)) (go "01310100") RaceState.init
        [.ret .viaCep, .ret .brasilApi, .recv .viaCep] =
      some { brasilApi := .sending (some paulistaInfo), viaCep := .returned, chan := [],
             ctx := some .Canceled, main := .finished .notFound, log := [] } := by
  decide

/-- C5, amended: if an adapter returns a record with a non-empty `Cep`, no
deadline fires before `main` is past the `select`, and the other adapter is
not received from first (it fails, or it has not returned, or its send is
simply not the one taken), then the only outcome the race can have is
`success` with that adapter's record, tagged with that adapter's identifier;
and as long as `main` is still in the `select`, that outcome is reached by
letting the adapter return and be received. -/
theorem delivering_adapter_wins (w : World) (cep : GoString) (p : Provider) (info : cepInfo)
    (es : List Event) (s : RaceState)
    (hf : p.fetch w cep = (some info, none)) (hne : info.Cep ≠ [])
    (hdl : Event.deadline ∉ es)
    (hother : (p.other.fetch w cep).2 ≠ none ∨ Event.ret p.other ∉ es ∨
      Event.recv p.other ∉ es)
    (hrun : run w cep RaceState.init es = some s) :
    info.Api = go p.label ∧
    (∀ o, s.main = .finished o → o = .success info) ∧
    (s.main = .selecting → ∃ es' s', (∀ e ∈ es', e = .ret p ∨ e = .recv p) ∧
      run w cep s es' = some s' ∧ s'.main = .finished (.success info)) := by
  have hrecv : Event.recv p.other ∉ es := not_received w cep p.other es s hother hrun
  have hwin := run_preserves w cep
    (fun t => Inv w cep t ∧ (t.main = .selecting → t.ctx = none) ∧
      (∀ o, t.main = .finished o → o = .success info))
    (fun e => e ≠ .deadline ∧ e ≠ .recv p.other)
    (fun t e t' hP hA hs => win_step w cep p info hf hne t e t' hP hA hs) es _ s
    ⟨Inv_init w cep, fun _ => rfl, fun o h => by cases h⟩
    (fun e he => ⟨fun h => hdl (by rw [← h]; exact he), fun h => hrecv (by rw [← h]; exact he)⟩)
    hrun
  obtain ⟨hI, _, hout⟩ := hwin
  have hret := run_preserves w cep
    (fun t => t.task p = .returned → ∃ o, t.main = .finished o) (fun _ => True)
    (fun t e t' hP _ hs => returned_step w cep p info hf t e t' hP hs) es _ s
    (by intro h; cases p <;> cases h) (fun _ _ => trivial) hrun
  have hapi : info.Api = go p.label := by
    rcases fetch_cases w cep p with ⟨err, h⟩ | ⟨info', h, hl, _⟩
    · rw [h] at hf
      cases hf
    · rw [h] at hf
      cases hf
      exact hl
  have hcl : classify (some info) = .success info := by
    simp [classify, hne]
  refine ⟨hapi, hout, ?_⟩
  intro hm
  cases ht : s.task p with
  | running =>
    have h1 := step_ret_ok w cep s p (some info) ht hf
    obtain ⟨t, h2, hmt⟩ := step_recv_ok w cep (s.setTask p (.sending (some info))) p
      (some info) (by simpa using hm) (by simpa using hI.1) (by simp)
    refine ⟨[.ret p, .recv p], t, ?_, ?_, ?_⟩
    · intro e he
      simpa using he
    · simp only [run, h1, h2]
    · rw [hmt, hcl]
  | sending resp =>
    have := hI.2.1 p resp ht
    rw [hf] at this
    cases this
    obtain ⟨t, h2, hmt⟩ := step_recv_ok w cep s p (some info) hm hI.1 ht
    refine ⟨[.recv p], t, ?_, ?_, ?_⟩
    · intro e he
      simp only [List.mem_singleton] at he
      exact Or.inr he
    · simp only [run, h2]
    · rw [hmt, hcl]
  | returned =>
    obtain ⟨o, ho⟩ := hret ht
    rw [hm] at ho
    cases ho

/-- Witness for C5 amended: Brasil API returns the Avenida Paulista record
and ViaCEP's response cannot be decoded, so ViaCEP fails. -/
theorem delivering_adapter_wins_witness :
    paulistaInfo.Api = go "brasil-api" ∧
    (∀ o, brasilWon.main = .finished o → o = .success paulistaInfo) :=
  ⟨(delivering_adapter_wins (exWorld (some paulista) none) (go "01310100") .brasilApi
      paulistaInfo [.ret .viaCep, .ret .brasilApi, .recv .brasilApi] brasilWon
      (by decide) (by decide) (by decide) (Or.inl (by decide)) (by decide)).1,
   (delivering_adapter_wins (exWorld (some paulista) none) (go "01310100") .brasilApi
      paulistaInfo [.ret .viaCep, .ret .brasilApi, .recv .brasilApi] brasilWon
      (by decide) (by decide) (by decide) (Or.inl (by decide)) (by decide)).2.1⟩

/-! ## The race: no delivery -/

/-- While nothing is received, the only outcome is the deadline error. -/
theorem nodelivery_step (w : World) (cep : GoString)
    (s : RaceState) (e : Event) (s' : RaceState)
    (hP : Inv w cep s ∧ (∀ o, s.main = .finished o → o = .ctxDone .DeadlineExceeded))
    (hA : ∀ p, e ≠ .recv p)
    (hs : step w cep s e = some s') :
    Inv w cep s' ∧ (∀ o, s'.main = .finished o → o = .ctxDone .DeadlineExceeded) := by
  obtain ⟨hI, hout⟩ := hP
  refine ⟨Inv_step w cep s e s' hI hs, ?_⟩
  cases e with
  | ret q =>
    obtain ⟨_, h | h⟩ := step_ret w cep s s' q hs
    · obtain ⟨r, err, _, rfl⟩ := h
      simpa using hout
    · obtain ⟨resp0, _, rfl⟩ := h
      simpa using hout
  | send q =>
    rw [step_send] at hs
    cases hs
  | deadline =>
    obtain ⟨_, rfl⟩ := step_deadline w cep s s' hs
    exact hout
  | recv q => exact absurd rfl (hA q)
  | recvBuf => exact absurd hI.1 (step_recvBuf w cep s s' hs).2
  | done =>
    obtain ⟨hm, err, hc, rfl⟩ := step_done w cep s s' hs
    intro o ho
    have ho' : o = .ctxDone err := (MainState.finished.inj ho).symm
    rcases hI.2.2.1 hm with h | h
    · rw [h] at hc
      cases hc
    · rw [h] at hc
      cases hc
      exact ho'

/-- While nothing is received and no deadline fires, `main` stays in the
`select` with a live context. -/
theorem waiting_step (w : World) (cep : GoString)
    (s : RaceState) (e : Event) (s' : RaceState)
    (hP : s.chan = [] ∧ s.ctx = none ∧ s.main = .selecting)
    (hA : e ≠ .deadline ∧ ∀ p, e ≠ .recv p)
    (hs : step w cep s e = some s') :
    s'.chan = [] ∧ s'.ctx = none ∧ s'.main = .selecting := by
  obtain ⟨hchan, hctx, hm⟩ := hP
  cases e with
  | ret q =>
    obtain ⟨_, h | h⟩ := step_ret w cep s s' q hs
    · obtain ⟨r, err, _, rfl⟩ := h
      exact ⟨by simpa using hchan, by simpa using hctx, by simpa using hm⟩
    · obtain ⟨resp0, _, rfl⟩ := h
      exact ⟨by simpa using hchan, by simpa using hctx, by simpa using hm⟩
  | send q =>
    rw [step_send] at hs
    cases hs
  | deadline => exact absurd rfl hA.1
  | recv q => exact absurd rfl (hA.2 q)
  | recvBuf => exact absurd hchan (step_recvBuf w cep s s' hs).2
  | done =>
    obtain ⟨_, err, hc, _⟩ := step_done w cep s s' hs
    rw [hctx] at hc
    cases hc

/-- A goroutine whose adapter failed has logged its error once it has
returned. -/
theorem logged_step (w : World) (cep : GoString) (p : Provider) (err : String)
    (hf : (p.fetch w cep).2 = some err)
    (s : RaceState) (e : Event) (s' : RaceState)
    (hP : Inv w cep s ∧
      (s.task p = .returned → ("error threading " ++ p.label ++ ": " ++ err) ∈ s.log))
    (hs : step w cep s e = some s') :
    Inv w cep s' ∧
      (s'.task p = .returned → ("error threading " ++ p.label ++ ": " ++ err) ∈ s'.log) := by
  obtain ⟨hI, hlog⟩ := hP
  refine ⟨Inv_step w cep s e s' hI hs, ?_⟩
  cases e with
  | ret q =>
    obtain ⟨_, h | h⟩ := step_ret w cep s s' q hs
    · obtain ⟨r, err', hfq, rfl⟩ := h
      by_cases hpq : p = q
      · subst hpq
        intro _
        rw [hfq] at hf
        cases hf
        simp
      · rw [task_of_log, setTask_task_ne s q p _ hpq]
        intro h
        exact List.mem_append_left _ (hlog h)
    · obtain ⟨resp0, hfq, rfl⟩ := h
      have hpq : p ≠ q := by
        intro h
        subst h
        rw [hfq] at hf
        cases hf
      rw [setTask_task_ne s q p _ hpq]
      simpa using hlog
  | send q =>
    rw [step_send] at hs
    cases hs
  | deadline =>
    obtain ⟨_, rfl⟩ := step_deadline w cep s s' hs
    rw [task_of_ctx]
    exact hlog
  | recv q =>
    obtain ⟨_, _, resp, ht, rfl⟩ := step_recv w cep s s' q hs
    have hpq : p ≠ q := by
      intro h
      subst h
      have := hI.2.1 p resp ht
      rw [this] at hf
      cases hf
    rw [task_of_ctx_main, setTask_task_ne s q p _ hpq]
    simpa using hlog
  | recvBuf => exact absurd hI.1 (step_recvBuf w cep s s' hs).2
  | done =>
    obtain ⟨_, err', _, rfl⟩ := step_done w cep s s' hs
    rw [task_of_main]
    exact hlog

/-- C6, as stated, fails: no adapter has delivered, or even returned, when
the deadline fires, yet the race ends in success. Both the receive and the
`ctx.Done()` case are then ready; Brasil API returns before `main` has taken
either, and the `select` takes the receive. -/
theorem late_delivery_beats_deadline :
    validate (go "01310100") = none ∧
    run (exWorld (some paulista) (some paulistaVia)) (go "01310100") RaceState.init
        [.deadline] =
      some { brasilApi := .running, viaCep := .running, chan := [],
             ctx := some .DeadlineExceeded, main := .selecting, log := [] } ∧
    run (exWorld (some paulista) (some paulistaVia)) (go "01310100") RaceState.init
        [.deadline, .ret .brasilApi, .recv .brasilApi] = some lateDelivery ∧
    lateDelivery.main = .finished (.success paulistaInfo) ∧
    lateDelivery.main ≠ .finished (.ctxDone .DeadlineExceeded) := by
  decide

/-- C6, amended: an adapter that fails never sends on the channel: its
goroutine is never blocked on a send, the channel holds nothing, and once the
goroutine has returned its error line is in the log. If, in the schedule up
to the state considered (in particular up to the point where `main` gets past
the `select`), every adapter either fails, or has not returned, or has not
been received from, then the only outcome the race can have is the
`ctx.Done()` branch with the deadline error, after the deadline has fired
(never success, not found, or anything else), and while `main` is still in
the `select` that outcome is reached once the deadline fires. -/
theorem no_delivery_times_out (w : World) (cep : GoString) (es : List Event) (s : RaceState)
    (hrun : run w cep RaceState.init es = some s) :
    (∀ p err, (p.fetch w cep).2 = some err →
      (∀ resp, s.task p ≠ .sending resp) ∧ s.chan = [] ∧
      (s.task p = .returned → ("error threading " ++ p.label ++ ": " ++ err) ∈ s.log)) ∧
    ((∀ p, (p.fetch w cep).2 ≠ none ∨ Event.ret p ∉ es ∨ Event.recv p ∉ es) →
      (∀ o, s.main = .finished o →
        o = .ctxDone .DeadlineExceeded ∧ Event.deadline ∈ es ∧
          o.logLine = some "context deadline exceeded") ∧
      (s.main = .selecting → ∃ es' s', (∀ e ∈ es', e = .deadline ∨ e = .done) ∧
        run w cep s es' = some s' ∧ s'.main = .finished (.ctxDone .DeadlineExceeded))) := by
  have hI := Inv_run w cep es _ s (Inv_init w cep) hrun
  constructor
  · intro p err hf
    have hl := run_preserves w cep
      (fun t => Inv w cep t ∧
        (t.task p = .returned → ("error threading " ++ p.label ++ ": " ++ err) ∈ t.log))
      (fun _ => True)
      (fun t e t' hP _ hs => logged_step w cep p err hf t e t' hP hs) es _ s
      ⟨Inv_init w cep, (by intro h; cases p <;> cases h)⟩ (fun _ _ => trivial) hrun
    refine ⟨?_, hI.1, hl.2⟩
    intro resp ht
    have := hI.2.1 p resp ht
    rw [this] at hf
    cases hf
  · intro hno
    have hA : ∀ e ∈ es, ∀ p, e ≠ Event.recv p := by
      intro e he p hep
      rw [hep] at he
      exact not_received w cep p es s (hno p) hrun he
    have hnd := run_preserves w cep
      (fun t => Inv w cep t ∧ (∀ o, t.main = .finished o → o = .ctxDone .DeadlineExceeded))
      (fun e => ∀ p, e ≠ .recv p)
      (fun t e t' hP hA hs => nodelivery_step w cep t e t' hP hA hs) es _ s
      ⟨Inv_init w cep, (by intro o h; cases h)⟩ hA hrun
    constructor
    · intro o ho
      have hoe := hnd.2 o ho
      refine ⟨hoe, ?_, by rw [hoe]; rfl⟩
      by_contra hdl
      have hw := run_preserves w cep
        (fun t => t.chan = [] ∧ t.ctx = none ∧ t.main = .selecting)
        (fun e => e ≠ .deadline ∧ ∀ p, e ≠ .recv p)
        (fun t e t' hP hA hs => waiting_step w cep t e t' hP hA hs) es _ s
        ⟨rfl, rfl, rfl⟩
        (fun e he => ⟨fun h => hdl (by rw [← h]; exact he), hA e he⟩) hrun
      rw [hw.2.2] at ho
      cases ho
    · intro hm
      rcases hI.2.2.1 hm with hc | hc
      · refine ⟨[.deadline, .done],
          { s with ctx := some .DeadlineExceeded,
                   main := .finished (.ctxDone .DeadlineExceeded) }, ?_, ?_, rfl⟩
        · intro e he
          simpa using he
        · simp only [run, step, hc, hm]
      · refine ⟨[.done], { s with main := .finished (.ctxDone .DeadlineExceeded) }, ?_, ?_, rfl⟩
        · intro e he
          simp only [List.mem_singleton] at he
          exact Or.inr he
        · simp only [run, step, hc, hm]

/-- Witness for C6 amended: both adapters fail to decode their responses, the
deadline fires and `main` takes the `ctx.Done()` case. -/
theorem no_delivery_times_out_witness :
    ((∀ resp, bothFailed.task .viaCep ≠ .sending resp) ∧ bothFailed.chan = [] ∧
      (bothFailed.task .viaCep = .returned →
        ("error threading " ++ Provider.viaCep.label ++ ": " ++
          ("error requesting brasil api: " ++
            "error to Unmarshal body: unexpected end of JSON input")) ∈ bothFailed.log)) ∧
    (Outcome.ctxDone .DeadlineExceeded = .ctxDone .DeadlineExceeded ∧
      Event.deadline ∈ [Event.ret .brasilApi, Event.ret .viaCep, Event.deadline, Event.done] ∧
      (Outcome.ctxDone .DeadlineExceeded).logLine = some "context deadline exceeded") :=
  ⟨(no_delivery_times_out (exWorld none none) (go "01310100")
      [.ret .brasilApi, .ret .viaCep, .deadline, .done] bothFailed (by decide)).1
      .viaCep _ (by decide),
   ((no_delivery_times_out (exWorld none none) (go "01310100")
      [.ret .brasilApi, .ret .viaCep, .deadline, .done] bothFailed (by decide)).2
      (fun p => Or.inl (by cases p <;> decide))).1 _ rfl⟩

/-! ## Empty responses and the printed cep -/

/-- C9: a response that decodes without error to an empty `cep` is not an
adapter error. Each adapter returns a record with an empty `Cep` and a nil
error; its goroutine offers that record on the channel; and when `main`
receives it the outcome is `notFound`, logged as `cep not found`. -/
theorem empty_response_is_not_found (w : World) (cep : GoString) :
    (∀ data, request w w.UnmarshalBrasilApi (go "https://brasilapi.com.br/api/cep/v1/" ++ cep)
        BrasilApiData.zero = (data, none) → data.Cep = [] →
      ∃ info, requestCepFromBrasilApi w cep = (some info, none) ∧ info.Cep = []) ∧
    (∀ data, request w w.UnmarshalViaCep (go "http://viacep.com.br/ws/" ++ cep ++ go "/json/")
        ViaCepData.zero = (data, none) → data.Cep = [] →
      ∃ info, requestCepFromViaCep w cep = (some info, none) ∧ info.Cep = []) ∧
    (∀ (p : Provider) (info : cepInfo), p.fetch w cep = (some info, none) → info.Cep = [] →
      (∃ s1 s2, step w cep RaceState.init (.ret p) = some s1 ∧
        s1.task p = .sending (some info) ∧ s1.log = [] ∧
        step w cep s1 (.recv p) = some s2 ∧ s2.main = .finished .notFound) ∧
      (∀ es s s', run w cep RaceState.init es = some s →
        step w cep s (.recv p) = some s' →
          s.task p = .sending (some info) ∧ s'.main = .finished .notFound)) ∧
    Outcome.notFound.logLine = some "cep not found" := by
  refine ⟨?_, ?_, ?_, rfl⟩
  · intro data h hc
    exact ⟨_, requestCepFromBrasilApi_ok w cep data h, hc⟩
  · intro data h hc
    exact ⟨_, requestCepFromViaCep_ok w cep data h, hc⟩
  · intro p info hf hc
    have hcl : classify (some info) = .notFound := by
      simp [classify, hc]
    constructor
    · have h1 := step_ret_ok w cep RaceState.init p (some info) (by cases p <;> rfl) hf
      obtain ⟨t, h2, hmt⟩ := step_recv_ok w cep
        (RaceState.init.setTask p (.sending (some info))) p (some info)
        (by simp [RaceState.init]) (by simp [RaceState.init]) (by simp)
      refine ⟨_, t, h1, by simp, by simp [RaceState.init], h2, ?_⟩
      rw [hmt, hcl]
    · intro es s s' hrun hrecv
      obtain ⟨info', hf', ht, hm, _⟩ := recv_delivers_fetch w cep es s s' p hrun hrecv
      rw [hf] at hf'
      cases hf'
      exact ⟨ht, by rw [hm, if_pos hc]⟩

/-- Witness for C9: for input `00000000` both providers answer with none of
the recognised fields; ViaCEP is received and the outcome is `notFound`. -/
theorem empty_response_is_not_found_witness :
    (∃ s1 s2, step (exWorld (some BrasilApiData.zero) (some ViaCepData.zero)) (go "00000000")
        RaceState.init (.ret .viaCep) = some s1 ∧
      s1.task .viaCep = .sending (some emptyViaInfo) ∧ s1.log = [] ∧
      step (exWorld (some BrasilApiData.zero) (some ViaCepData.zero)) (go "00000000")
        s1 (.recv .viaCep) = some s2 ∧ s2.main = .finished .notFound) ∧
    Outcome.notFound.logLine = some "cep not found" :=
  ⟨((empty_response_is_not_found (exWorld (some BrasilApiData.zero) (some ViaCepData.zero))
      (go "00000000")).2.2.1 .viaCep emptyViaInfo (by decide) (by decide)).1,
   (empty_response_is_not_found (exWorld (some BrasilApiData.zero) (some ViaCepData.zero))
      (go "00000000")).2.2.2⟩

/-- C10: the `Cep` of a printed record is the non-empty `cep` string the
winning provider's response decoded to; the input code takes no part in it.
In particular, for the validated input `01310100` and a Brasil API response
whose cep is `01310-100`, the printed `Cep` is `01310-100`: it differs from
the input, has nine bytes, contains a byte that is not a digit, and would
itself be rejected by the validation. -/
theorem success_cep_is_provider_cep (w : World) (cep : GoString) (es : List Event)
    (s : RaceState) (info : cepInfo)
    (hrun : run w cep RaceState.init es = some s)
    (hmain : s.main = .finished (.success info)) :
    (info.Cep ≠ [] ∧
      ((info.Api = go "brasil-api" ∧ ∃ data,
          request w w.UnmarshalBrasilApi (go "https://brasilapi.com.br/api/cep/v1/" ++ cep)
            BrasilApiData.zero = (data, none) ∧ info.Cep = data.Cep) ∨
       (info.Api = go "via-cep" ∧ ∃ data,
          request w w.UnmarshalViaCep (go "http://viacep.com.br/ws/" ++ cep ++ go "/json/")
            ViaCepData.zero = (data, none) ∧ info.Cep = data.Cep))) ∧
    (validate (go "01310100") = none ∧
      run (exWorld (some paulista) (some paulistaVia)) (go "01310100") RaceState.init
        [.ret .brasilApi, .recv .brasilApi] = some brasilFirst ∧
      brasilFirst.main = .finished (.success paulistaInfo) ∧
      paulistaInfo.Cep = go "01310-100" ∧ paulistaInfo.Cep ≠ go "01310100" ∧
      paulistaInfo.Cep.length = 9 ∧ (45 : Fin 256) ∈ paulistaInfo.Cep ∧ isDigit 45 = false ∧
      validate paulistaInfo.Cep = some "cep must have eight digits") := by
  refine ⟨?_, by decide⟩
  obtain ⟨_, _, _, hout⟩ := Inv_run w cep es _ s (Inv_init w cep) hrun
  rcases hout _ hmain with h | ⟨p, _, hcl⟩
  · cases h
  · rcases fetch_cases w cep p with ⟨err, h⟩ | ⟨info', h, hl, hsrc⟩
    · rw [h] at hcl
      cases hcl
    · rw [h] at hcl
      simp only [classify] at hcl
      split at hcl
      · cases hcl
      · rename_i hne
        cases hcl
        refine ⟨hne, ?_⟩
        rcases hsrc with ⟨hp, data, hr, hc⟩ | ⟨hp, data, hr, hc⟩
        · subst hp
          exact Or.inl ⟨hl, data, hr, hc⟩
        · subst hp
          exact Or.inr ⟨hl, data, hr, hc⟩

/-- Witness for C10 at the input `01310100` and the Avenida Paulista
response. -/
theorem success_cep_is_provider_cep_witness :
    paulistaInfo.Cep ≠ [] ∧
      ((paulistaInfo.Api = go "brasil-api" ∧ ∃ data,
          request (exWorld (some paulista) (some paulistaVia))
            (exWorld (some paulista) (some paulistaVia)).UnmarshalBrasilApi
            (go "https://brasilapi.com.br/api/cep/v1/" ++ go "01310100")
            BrasilApiData.zero = (data, none) ∧ paulistaInfo.Cep = data.Cep) ∨
       (paulistaInfo.Api = go "via-cep" ∧ ∃ data,
          request (exWorld (some paulista) (some paulistaVia))
            (exWorld (some paulista) (some paulistaVia)).UnmarshalViaCep
            (go "http://viacep.com.br/ws/" ++ go "01310100" ++ go "/json/")
            ViaCepData.zero = (data, none) ∧ paulistaInfo.Cep = data.Cep)) :=
  (success_cep_is_provider_cep (exWorld (some paulista) (some paulistaVia)) (go "01310100")
    [.ret .brasilApi, .recv .brasilApi] brasilFirst paulistaInfo (by decide) (by decide)).1

end Cep
